import Mathlib

/-!
Verification development for the dissociation query engine of `app.py`
(Flask service over the `ns` schema: `annotations_terms`, `coordinates`,
`metadata`).  The SQL queries, the Python glue of the two dissociation
endpoints, and the Werkzeug content-negotiation predicate used by them are
shallowly embedded as executable Lean functions; the theorems below settle
the frozen claims about that engine.
-/

/-! ### Case folding and PostgreSQL ILIKE pattern matching

`dissociate_terms` builds the pattern `f"%{term}%"` and runs
`term ILIKE :pattern`.  ILIKE is case-insensitive LIKE: `%` matches any
sequence, `_` any single character, and backslash escapes the following
character.  `ilikeFuel` is a fuel-indexed (hence structurally recursive and
kernel-computable) matcher; `ilikeMatch` instantiates the fuel with a bound
large enough to never run out. -/

def lower (l : List Char) : List Char := l.map Char.toLower

/-- A term is metacharacter-free when it contains none of the ILIKE
metacharacters `%`, `_`, `\`. -/
def plain (l : List Char) : Bool :=
  l.all fun c => (c != '%') && (c != '_') && (c != '\\')

def ilikeFuel : Nat → List Char → List Char → Bool
  | 0, _, _ => false
  | fuel + 1, p, s =>
    match p with
    | [] => s.isEmpty
    | c :: p2 =>
      if c = '%' then
        ilikeFuel fuel p2 s ||
          (match s with
           | [] => false
           | _ :: s2 => ilikeFuel fuel p s2)
      else if c = '\\' then
        match p2 with
        | [] => false
        | c2 :: p3 =>
          match s with
          | [] => false
          | d :: s2 => (d.toLower == c2.toLower) && ilikeFuel fuel p3 s2
      else
        match s with
        | [] => false
        | d :: s2 =>
          if c = '_' then ilikeFuel fuel p2 s2
          else (d.toLower == c.toLower) && ilikeFuel fuel p2 s2

def ilikeMatch (p s : List Char) : Bool :=
  ilikeFuel (p.length + s.length + 1) p s

theorem ilikeFuel_succ (fuel : Nat) (p s : List Char) :
    ilikeFuel (fuel + 1) p s =
      match p with
      | [] => s.isEmpty
      | c :: p2 =>
        if c = '%' then
          ilikeFuel fuel p2 s ||
            (match s with
             | [] => false
             | _ :: s2 => ilikeFuel fuel p s2)
        else if c = '\\' then
          match p2 with
          | [] => false
          | c2 :: p3 =>
            match s with
            | [] => false
            | d :: s2 => (d.toLower == c2.toLower) && ilikeFuel fuel p3 s2
        else
          match s with
          | [] => false
          | d :: s2 =>
            if c = '_' then ilikeFuel fuel p2 s2
            else (d.toLower == c.toLower) && ilikeFuel fuel p2 s2 := rfl

theorem ilikeFuel_congr : ∀ (f1 f2 : Nat) (p s : List Char),
    p.length + s.length < f1 → p.length + s.length < f2 →
    ilikeFuel f1 p s = ilikeFuel f2 p s := by
  intro f1
  induction f1 with
  | zero => intro f2 p s h1 _; omega
  | succ f ih =>
    intro f2 p s h1 h2
    cases f2 with
    | zero => omega
    | succ g =>
      rw [ilikeFuel_succ, ilikeFuel_succ]
      cases p with
      | nil => rfl
      | cons c p2 =>
        simp only [List.length_cons] at h1 h2
        dsimp only
        by_cases hc : c = '%'
        · simp only [if_pos hc]
          rw [ih g p2 s (by omega) (by omega)]
          cases s with
          | nil => rfl
          | cons d s2 =>
            simp only [List.length_cons] at h1 h2
            dsimp only
            rw [ih g (c :: p2) s2 (by simp only [List.length_cons]; omega)
              (by simp only [List.length_cons]; omega)]
        · by_cases hb : c = '\\'
          · simp only [if_neg hc, if_pos hb]
            cases p2 with
            | nil => rfl
            | cons c2 p3 =>
              simp only [List.length_cons] at h1 h2
              dsimp only
              cases s with
              | nil => rfl
              | cons d s2 =>
                simp only [List.length_cons] at h1 h2
                dsimp only
                rw [ih g p3 s2 (by omega) (by omega)]
          · simp only [if_neg hc, if_neg hb]
            cases s with
            | nil => rfl
            | cons d s2 =>
              simp only [List.length_cons] at h1 h2
              dsimp only
              rw [ih g p2 s2 (by omega) (by omega)]

theorem ilikeFuel_eq_match (f : Nat) (p s : List Char)
    (h : p.length + s.length < f) : ilikeFuel f p s = ilikeMatch p s :=
  ilikeFuel_congr f (p.length + s.length + 1) p s h (by omega)

theorem ilikeMatch_nil (s : List Char) : ilikeMatch [] s = s.isEmpty := by
  unfold ilikeMatch
  rw [show [].length + s.length + 1 = s.length + 1 by simp, ilikeFuel_succ]

theorem ilikeMatch_pct_nil (p : List Char) :
    ilikeMatch ('%' :: p) [] = ilikeMatch p [] := by
  unfold ilikeMatch
  rw [ilikeFuel_succ]
  dsimp only
  rw [if_pos rfl, Bool.or_false]
  exact ilikeFuel_eq_match _ _ _ (by simp only [List.length_cons, List.length_nil]; omega)

theorem ilikeMatch_pct_cons (p : List Char) (d : Char) (s : List Char) :
    ilikeMatch ('%' :: p) (d :: s)
      = (ilikeMatch p (d :: s) || ilikeMatch ('%' :: p) s) := by
  unfold ilikeMatch
  rw [ilikeFuel_succ]
  dsimp only
  rw [if_pos rfl]
  have hA : ilikeFuel (('%' :: p).length + (d :: s).length) p (d :: s)
      = ilikeMatch p (d :: s) :=
    ilikeFuel_eq_match _ _ _ (by simp only [List.length_cons]; omega)
  have hB : ilikeFuel (('%' :: p).length + (d :: s).length) ('%' :: p) s
      = ilikeMatch ('%' :: p) s :=
    ilikeFuel_eq_match _ _ _ (by simp only [List.length_cons]; omega)
  rw [hA, hB]
  rfl

theorem ilikeMatch_lit_nil (c : Char) (p : List Char)
    (h1 : c ≠ '%') (h2 : c ≠ '\\') : ilikeMatch (c :: p) [] = false := by
  unfold ilikeMatch
  rw [ilikeFuel_succ]
  dsimp only
  rw [if_neg h1, if_neg h2]

theorem ilikeMatch_lit_cons (c : Char) (p : List Char) (d : Char) (s : List Char)
    (h1 : c ≠ '%') (h2 : c ≠ '\\') (h3 : c ≠ '_') :
    ilikeMatch (c :: p) (d :: s)
      = ((d.toLower == c.toLower) && ilikeMatch p s) := by
  unfold ilikeMatch
  rw [ilikeFuel_succ]
  dsimp only
  rw [if_neg h1, if_neg h2, if_neg h3]
  have hA : ilikeFuel ((c :: p).length + (d :: s).length) p s = ilikeMatch p s :=
    ilikeFuel_eq_match _ _ _ (by simp only [List.length_cons]; omega)
  rw [hA]
  rfl

theorem ilikeMatch_pct_all (s : List Char) : ilikeMatch ['%'] s = true := by
  induction s with
  | nil => rw [ilikeMatch_pct_nil, ilikeMatch_nil]; rfl
  | cons d s ih => rw [ilikeMatch_pct_cons, ih, Bool.or_true]

theorem ilikeMatch_pct_iff (p s : List Char) :
    ilikeMatch ('%' :: p) s = true ↔
      ∃ s1 s2, s = s1 ++ s2 ∧ ilikeMatch p s2 = true := by
  induction s with
  | nil =>
    rw [ilikeMatch_pct_nil]
    constructor
    · intro h; exact ⟨[], [], rfl, h⟩
    · rintro ⟨s1, s2, heq, h⟩
      have h1 : s1 = [] ∧ s2 = [] := by
        constructor <;> (cases s1 <;> simp_all)
      rw [← h1.2]; exact h
  | cons d s ih =>
    rw [ilikeMatch_pct_cons, Bool.or_eq_true, ih]
    constructor
    · rintro (h | ⟨s1, s2, rfl, h⟩)
      · exact ⟨[], d :: s, rfl, h⟩
      · exact ⟨d :: s1, s2, rfl, h⟩
    · rintro ⟨s1, s2, heq, h⟩
      cases s1 with
      | nil => left; rw [List.nil_append] at heq; rw [heq]; exact h
      | cons e s1 =>
        right
        rw [List.cons_append] at heq
        injection heq with h1 h2
        exact ⟨s1, s2, h2, h⟩

theorem plain_cons (c : Char) (t : List Char) (h : plain (c :: t) = true) :
    c ≠ '%' ∧ c ≠ '_' ∧ c ≠ '\\' ∧ plain t = true := by
  simp only [plain, List.all_cons, Bool.and_eq_true, bne_iff_ne] at h
  exact ⟨h.1.1.1, h.1.1.2, h.1.2, h.2⟩

theorem ilikeMatch_seg_iff (t : List Char) (ht : plain t = true) :
    ∀ s : List Char, ilikeMatch (t ++ ['%']) s = true ↔ lower t <+: lower s := by
  induction t with
  | nil =>
    intro s
    rw [List.nil_append, ilikeMatch_pct_all]
    simp [lower]
  | cons c t ih =>
    intro s
    obtain ⟨hc1, hc2, hc3, hplain⟩ := plain_cons c t ht
    rw [List.cons_append]
    cases s with
    | nil =>
      rw [ilikeMatch_lit_nil c _ hc1 hc3]
      simp [lower]
    | cons d s =>
      rw [ilikeMatch_lit_cons c _ d s hc1 hc3 hc2]
      simp only [lower, List.map_cons, List.cons_prefix_cons, Bool.and_eq_true,
        beq_iff_eq, ih hplain s, lower]
      constructor
      · rintro ⟨h1, h2⟩; exact ⟨h1.symm, h2⟩
      · rintro ⟨h1, h2⟩; exact ⟨h1.symm, h2⟩

theorem ilikeMatch_termPat_iff (t : List Char) (ht : plain t = true)
    (s : List Char) :
    ilikeMatch ('%' :: (t ++ ['%'])) s = true ↔ lower t <:+: lower s := by
  rw [ilikeMatch_pct_iff]
  constructor
  · rintro ⟨s1, s2, rfl, h⟩
    rw [ilikeMatch_seg_iff t ht s2] at h
    obtain ⟨r, hr⟩ := h
    refine ⟨lower s1, r, ?_⟩
    simp only [lower, List.map_append, List.append_assoc] at hr ⊢
    rw [hr]
  · rintro ⟨u, v, huv⟩
    refine ⟨s.take u.length, s.drop u.length, (List.take_append_drop _ s).symm, ?_⟩
    rw [ilikeMatch_seg_iff t ht]
    have hd : lower (s.drop u.length) = lower t ++ v := by
      have h1 : lower (s.drop u.length) = (lower s).drop u.length := by
        rw [lower, lower, List.map_drop]
      rw [h1, ← huv, List.append_assoc, List.drop_left]
    exact ⟨v, by rw [hd]⟩

/-! ### String-level ILIKE and case-insensitive substring containment

`ilike s pat` models `s ILIKE pat` in PostgreSQL; `termPattern t` is the
pattern `f"%{t}%"` built by `dissociate_terms`.  `containsCI hay needle`
is the specification-level notion: `needle` occurs in `hay` as a
case-insensitive substring. -/

def ilike (s pat : String) : Bool := ilikeMatch pat.data s.data

def termPattern (t : String) : String := "%" ++ t ++ "%"

def containsCI (hay needle : String) : Prop :=
  lower needle.data <:+: lower hay.data

instance (hay needle : String) : Decidable (containsCI hay needle) :=
  List.decidableInfix _ _

theorem termPattern_data (t : String) :
    (termPattern t).data = '%' :: (t.data ++ ['%']) := by
  simp [termPattern, String.data_append]

theorem ilike_termPattern_iff (s t : String) (ht : plain t.data = true) :
    ilike s (termPattern t) = true ↔ containsCI s t := by
  rw [ilike, termPattern_data, ilikeMatch_termPat_iff t.data ht s.data]
  rfl

/-! ### Python float parsing

`dissociate_locations` parses each URL path component with Python's
`float()` after splitting on `_`.  `pyFloat?` models `float()` on the
resulting components: optional surrounding whitespace, optional sign, then
`inf`/`infinity`/`nan` (case-insensitive) or a decimal literal with
optional fraction, optional exponent, and underscores allowed between
digits.  Finite values are represented exactly as rationals. -/

inductive PyFloat where
  | finite (num : Int) (den : Nat)
  | inf
  | neginf
  | nan
deriving DecidableEq

/-- The rational value of a parsed float; `none` for the non-finite ones.
(The denominators produced by the parser are always positive powers of
ten.) -/
def PyFloat.valQ : PyFloat → Option ℚ
  | PyFloat.finite n d => some ((n : ℚ) / (d : ℚ))
  | _ => none

def isPySpace (c : Char) : Bool :=
  c == ' ' || c == '\t' || c == '\n' || c == '\r' || c == '\x0b' || c == '\x0c'

def pyStrip (l : List Char) : List Char :=
  ((l.dropWhile isPySpace).reverse.dropWhile isPySpace).reverse

def digitVal (c : Char) : Nat := c.toNat - 48

/-- Consumes a Python `digitpart`: digits with underscores allowed only
between digits.  Returns the accumulated value, the number of digits
consumed, and the unconsumed remainder. -/
def parseDigits : List Char → Nat → Nat → Nat × Nat × List Char
  | [], v, k => (v, k, [])
  | [c], v, k =>
    if c.isDigit then (10 * v + digitVal c, k + 1, [])
    else (v, k, [c])
  | c :: d :: cs, v, k =>
    if c.isDigit then parseDigits (d :: cs) (10 * v + digitVal c) (k + 1)
    else if c == '_' && decide (0 < k) && d.isDigit then
      parseDigits cs (10 * v + digitVal d) (k + 1)
    else (v, k, c :: d :: cs)

def parseSignB : List Char → Bool × List Char
  | '+' :: cs => (false, cs)
  | '-' :: cs => (true, cs)
  | cs => (false, cs)

def parseInfNan (neg : Bool) (l : List Char) : Option PyFloat :=
  let ll := lower l
  if ll = "inf".data || ll = "infinity".data then
    some (if neg then PyFloat.neginf else PyFloat.inf)
  else if ll = "nan".data then some PyFloat.nan
  else none

/-- Parses `digitpart ["." [digitpart]] | "." digitpart`, returning the
numerator, the power-of-ten denominator and the remainder. -/
def parseMantissa (l : List Char) : Option (Nat × Nat × List Char) :=
  match l with
  | '.' :: rest =>
    let r := parseDigits rest 0 0
    if r.2.1 = 0 then none
    else some (r.1, 10 ^ r.2.1, r.2.2)
  | c :: _ =>
    if c.isDigit then
      let r := parseDigits l 0 0
      match r.2.2 with
      | '.' :: rest2 =>
        let r2 := parseDigits rest2 0 0
        some (r.1 * 10 ^ r2.2.1 + r2.1, 10 ^ r2.2.1, r2.2.2)
      | rest => some (r.1, 1, rest)
    else none
  | [] => none

def parseExp (l : List Char) : Option (Int × List Char) :=
  match l with
  | c :: rest =>
    if c == 'e' || c == 'E' then
      let sr := parseSignB rest
      let r := parseDigits sr.2 0 0
      if r.2.1 = 0 then none
      else some ((if sr.1 then -(r.1 : Int) else (r.1 : Int)), r.2.2)
    else some (0, l)
  | [] => some (0, [])

def applyExp (num den : Nat) (e : Int) : Nat × Nat :=
  match e with
  | Int.ofNat n => (num * 10 ^ n, den)
  | Int.negSucc n => (num, den * 10 ^ (n + 1))


/-- Splits on `_` exactly like Python's `str.split("_")`, keeping empty
segments (`"".split("_") == [""]`, `"a__b".split("_") == ["a","","b"]`). -/
def splitU : List Char → List Char → List (List Char)
  | [], acc => [acc.reverse]
  | c :: cs, acc =>
    if c = '_' then acc.reverse :: splitU cs []
    else splitU cs (c :: acc)

def pyFloat? (l : List Char) : Option PyFloat :=
  let l2 := pyStrip l
  let sr := parseSignB l2
  match parseInfNan sr.1 sr.2 with
  | some pf => some pf
  | none =>
    match parseMantissa sr.2 with
    | none => none
    | some (m, den, rest) =>
      match parseExp rest with
      | none => none
      | some (e, rest2) =>
        if rest2.isEmpty then
          let nd := applyExp m den e
          some (PyFloat.finite (if sr.1 then -(nd.1 : Int) else (nd.1 : Int)) nd.2)
        else none

/-- Parses a `_`-separated coordinate path component exactly as
`x, y, z = map(float, coords.split("_"))`: the parse succeeds iff there are
exactly three components and each one is accepted by `float()`. -/
def parseCoords (s : String) : Option (PyFloat × PyFloat × PyFloat) :=
  match splitU s.data [] with
  | [a, b, c] =>
    match pyFloat? a, pyFloat? b, pyFloat? c with
    | some x, some y, some z => some (x, y, z)
    | _, _, _ => none
  | _ => none

/-! ### Data model

Rows of the three `ns` tables used by the engine.  `study_id` is modelled
as an opaque natural number.  Stored coordinates are exact rationals (the
store holds finite floats); `metadata.title` is nullable. -/

structure AnnotationRow where
  study_id : Nat
  contrast_id : String
  term : String
  weight : ℚ
deriving DecidableEq

structure CoordinateRow where
  study_id : Nat
  x : ℚ
  y : ℚ
  z : ℚ
deriving DecidableEq

structure MetadataRow where
  study_id : Nat
  title : Option String
deriving DecidableEq

structure DB where
  annotations_terms : List AnnotationRow
  coordinates : List CoordinateRow
  metadata : List MetadataRow
deriving DecidableEq

/-- One store query issued through `conn.execute`, in program order. -/
inductive Query where
  | setPath
  | termDissoc (pat_a pat_b : String)
  | termMeta (ids : List Nat)
  | coordStudies (p : PyFloat × PyFloat × PyFloat)
  | coordMeta (ids : List Nat)
deriving DecidableEq

/-! ### Term-mode pipeline (`dissociate_terms`)

`resolveTermStudies` is the subquery
`SELECT study_id FROM ns.annotations_terms WHERE term ILIKE :pat`;
`termDissocIds` is the main query
`SELECT DISTINCT a.study_id ... WHERE a.term ILIKE :term_a AND a.study_id
NOT IN (...) LIMIT 50` (row order is the table order; `DISTINCT` keeps the
first occurrence); `termMetaRows` is the metadata join
`SELECT study_id, title FROM ns.metadata WHERE study_id = ANY(:ids)
LIMIT 50`. -/

def resolveTermStudies (db : DB) (t : String) : List Nat :=
  (db.annotations_terms.filter fun r => ilike r.term (termPattern t)).map
    fun r => r.study_id

def termDissocIds (db : DB) (ta tb : String) : List Nat :=
  (((db.annotations_terms.filter fun r =>
      ilike r.term (termPattern ta) &&
        !((resolveTermStudies db tb).contains r.study_id)).map
    fun r => r.study_id).dedup).take 50

def termMetaRows (db : DB) (ids : List Nat) : List (Nat × Option String) :=
  ((db.metadata.filter fun m => ids.contains m.study_id).map
    fun m => (m.study_id, m.title)).take 50

structure TermData where
  term_a : String
  term_b : String
  count : Nat
  studies : List (Nat × Option String)
deriving DecidableEq

/-- The data assembled by `dissociate_terms` before rendering, together
with the trace of store queries it issues: the dissociation query always,
the metadata join only when `study_ids` is non-empty. -/
def dissociateTermsCore (db : DB) (ta tb : String) : TermData × List Query :=
  let ids := termDissocIds db ta tb
  if ids.isEmpty then
    ({ term_a := ta, term_b := tb, count := 0, studies := [] },
     [Query.setPath, Query.termDissoc (termPattern ta) (termPattern tb)])
  else
    let rows := termMetaRows db ids
    ({ term_a := ta, term_b := tb, count := rows.length, studies := rows },
     [Query.setPath, Query.termDissoc (termPattern ta) (termPattern tb),
      Query.termMeta ids])

/-! ### Coordinate-mode pipeline (`dissociate_locations`) -/

/-- `ST_X(geom) = :x` for a parsed float against a stored coordinate:
exact float equality, decided on exact rationals by cross-multiplication
(`v` is a normalized rational, `d` a positive power of ten).  The store
holds finite values only, so `inf`, `-inf` and `nan` match no row. -/
def coordMatch (p : PyFloat) (v : ℚ) : Bool :=
  match p with
  | PyFloat.finite n d => n * v.den == v.num * (d : Int)
  | _ => false

/-- `get_studies`: `SELECT DISTINCT study_id FROM ns.coordinates WHERE
ST_X(geom) = :x AND ST_Y(geom) = :y AND ST_Z(geom) = :z LIMIT 100`. -/
def getStudies (db : DB) (p : PyFloat × PyFloat × PyFloat) : List Nat :=
  (((db.coordinates.filter fun c =>
      coordMatch p.1 c.x && coordMatch p.2.1 c.y && coordMatch p.2.2 c.z).map
    fun c => c.study_id).dedup).take 100

/-- `studies_a - studies_b` over the two resolved sets. -/
def coordDissocAB (db : DB) (pa pb : PyFloat × PyFloat × PyFloat) : List Nat :=
  (getStudies db pa).filter fun sid => !((getStudies db pb).contains sid)

/-- `studies_b - studies_a`. -/
def coordDissocBA (db : DB) (pa pb : PyFloat × PyFloat × PyFloat) : List Nat :=
  (getStudies db pb).filter fun sid => !((getStudies db pa).contains sid)

/-- `all_ids = list(set(dissoc_a_b) | set(dissoc_b_a))`. -/
def locAllIds (db : DB) (pa pb : PyFloat × PyFloat × PyFloat) : List Nat :=
  (coordDissocAB db pa pb ++ coordDissocBA db pa pb).dedup

/-- The metadata join of `dissociate_locations` (no LIMIT), guarded by
`if dissoc_a_b or dissoc_b_a:`; otherwise `meta_dict = {}` with no store
query. -/
def locMetaRows (db : DB) (pa pb : PyFloat × PyFloat × PyFloat) :
    List (Nat × Option String) :=
  if (coordDissocAB db pa pb).isEmpty && (coordDissocBA db pa pb).isEmpty then []
  else
    (db.metadata.filter fun m => (locAllIds db pa pb).contains m.study_id).map
      fun m => (m.study_id, m.title)

/-- `meta_dict.get(sid)`: a missing id and a NULL title are both `none`,
and a duplicate row overwrites the earlier one, exactly like the Python
dict built from the result rows. -/
def metaDict (rows : List (Nat × Option String)) (sid : Nat) : Option String :=
  match rows.reverse.find? fun r => r.1 == sid with
  | some r => r.2
  | none => none

structure LocData where
  coords_a : PyFloat × PyFloat × PyFloat
  coords_b : PyFloat × PyFloat × PyFloat
  A_minus_B : List (Nat × Option String)
  B_minus_A : List (Nat × Option String)
deriving DecidableEq

def dissociateLocationsCore (db : DB) (pa pb : PyFloat × PyFloat × PyFloat) :
    LocData × List Query :=
  ({ coords_a := pa, coords_b := pb,
     A_minus_B := (coordDissocAB db pa pb).map
       fun sid => (sid, metaDict (locMetaRows db pa pb) sid),
     B_minus_A := (coordDissocBA db pa pb).map
       fun sid => (sid, metaDict (locMetaRows db pa pb) sid) },
   [Query.setPath, Query.coordStudies pa, Query.coordStudies pb] ++
     (if (coordDissocAB db pa pb).isEmpty && (coordDissocBA db pa pb).isEmpty
      then []
      else [Query.coordMeta (locAllIds db pa pb)]))

/-! ### Content negotiation (`request.accept_mimetypes.accept_html`)

The endpoints branch on Werkzeug's `MIMEAccept.accept_html`, which is
`"text/html" in self or "application/xhtml+xml" in self or
self.accept_xhtml`, with `accept_xhtml` checking `application/xhtml+xml`
and `application/xml`.  Membership ignores the quality values entirely:
`_value_matches` returns `False` for any header item not containing `/`
(so a bare `*` entry never matches anything), and otherwise matches by
(lower-cased) exact type/subtype equality or wildcards (`*/*` matches
everything, `type/*` matches the type, `*/subtype` nothing).  An absent
`Accept` header is the empty entry list. -/

structure AcceptItem where
  mime : String
  q : ℚ
deriving DecidableEq

def splitSlashAux : List Char → List Char → Option (List Char × List Char)
  | [], _ => none
  | c :: cs, acc =>
    if c = '/' then some (acc.reverse, cs)
    else splitSlashAux cs (c :: acc)

/-- Splits a header item into lower-cased type and subtype; `none` when it
contains no `/`, in which case `_value_matches` rejects it outright. -/
def normMime (m : String) : Option (List Char × List Char) :=
  splitSlashAux (lower m.data) []

def valueMatches (value item : String) : Bool :=
  match normMime item, splitSlashAux (lower value.data) [] with
  | some (it, isub), some (vt, vsub) =>
    if it = ['*'] then isub == ['*']
    else (it == vt) && ((isub == ['*']) || isub == vsub)
  | _, _ => false

def mimeAccepts (items : List AcceptItem) (value : String) : Bool :=
  items.any fun it => valueMatches value it.mime

def acceptHtml (items : List AcceptItem) : Bool :=
  mimeAccepts items "text/html" || mimeAccepts items "application/xhtml+xml" ||
    mimeAccepts items "application/xml"

/-- Follows the spec's words, for comparison with the code's branch
condition: the client "explicitly prefers markup over structured data"
when the best quality it assigns to `text/html` exceeds the best quality
it assigns to `application/json`. -/
def qualityOf (items : List AcceptItem) (value : String) : ℚ :=
  (items.filter fun it => valueMatches value it.mime).foldr
    (fun it acc => max it.q acc) 0

def specPrefersMarkup (items : List AcceptItem) : Prop :=
  qualityOf items "application/json" < qualityOf items "text/html"

instance (items : List AcceptItem) : Decidable (specPrefersMarkup items) :=
  Rat.instDecidableLt _ _

/-! ### Rendering

The HTML bodies are built by f-string interpolation with no escaping; the
row cells come from `f"<tr><td>{s['study_id']}</td><td>{s.get('title','(no
title)')}</td></tr>"`, where the `title` key is always present in the row
dict, so a NULL title renders as Python's `str(None)`, i.e. `None`, and
the `'(no title)'` default is dead. -/

def pyTitleStr : Option String → String
  | some t => t
  | none => "None"

def rowHtml (s : Nat × Option String) : String :=
  "<tr><td>" ++ toString s.1 ++ "</td><td>" ++ pyTitleStr s.2 ++ "</td></tr>"

def styleBlockHtml (ind : String) : String :=
  ind ++ "body \x7b font-family: system-ui, sans-serif; margin: 40px; \x7d\n" ++
  ind ++ "h2 \x7b font-size: 1.5em; margin-bottom: 0.5em; \x7d\n" ++
  ind ++ "table \x7b border-collapse: collapse; width: 80%; margin-top: 1em; \x7d\n" ++
  ind ++ "th, td \x7b border: 1px solid #ccc; padding: 8px 12px; text-align: left; \x7d\n" ++
  ind ++ "th \x7b background-color: #f3f4f6; \x7d\n" ++
  ind ++ "tr:nth-child(even) \x7b background-color: #fafafa; \x7d\n" ++
  ind ++ ".count \x7b font-weight: bold; color: #2563eb; \x7d\n"

def renderTermHtml (d : TermData) : String :=
  "\n" ++
  "                    <html>\n" ++
  "                    <head>\n" ++
  "                        <meta charset=\"utf-8\">\n" ++
  "                        <title>Dissociate by Terms</title>\n" ++
  "                        <style>\n" ++
  styleBlockHtml "                            " ++
  "                        </style>\n" ++
  "                    </head>\n" ++
  "                    <body>\n" ++
  "                        <h2>🧠 Dissociate by Terms</h2>\n" ++
  "                        <p>Studies mentioning <b>" ++ d.term_a ++
    "</b> but not <b>" ++ d.term_b ++ "</b></p>\n" ++
  "                        <p class=\"count\">Count: " ++ toString d.count ++ "</p>\n" ++
  "\n" ++
  "                        <table>\n" ++
  "                            <tr><th>Study ID</th><th>Title</th></tr>\n" ++
  "                            " ++ String.join (d.studies.map rowHtml) ++ "\n" ++
  "                        </table>\n" ++
  "                    </body>\n" ++
  "                    </html>\n" ++
  "                    "

def renderLocHtml (ca cb : String) (d : LocData) : String :=
  "\n" ++
  "                <html>\n" ++
  "                <head>\n" ++
  "                    <meta charset=\"utf-8\">\n" ++
  "                    <title>Dissociate by Coordinates</title>\n" ++
  "                    <style>\n" ++
  styleBlockHtml "                        " ++
  "                    </style>\n" ++
  "                </head>\n" ++
  "                <body>\n" ++
  "                    <h2>📍 Dissociate by Coordinates</h2>\n" ++
  "                    <p>Comparing <b>" ++ ca ++ "</b> vs <b>" ++ cb ++ "</b></p>\n" ++
  "\n" ++
  "                    <h3>A − B Studies that mention " ++ ca ++ " but not " ++ cb ++ ".</h3>\n" ++
  "                    <table>\n" ++
  "                        <tr><th>Study ID</th><th>Title</th></tr>\n" ++
  "                        " ++ String.join (d.A_minus_B.map rowHtml) ++ "\n" ++
  "                    </table>\n" ++
  "\n" ++
  "                    <h3>B − A Studies that mention " ++ cb ++ " but not " ++ ca ++ ".</h3>\n" ++
  "                    <table>\n" ++
  "                        <tr><th>Study ID</th><th>Title</th></tr>\n" ++
  "                        " ++ String.join (d.B_minus_A.map rowHtml) ++ "\n" ++
  "                    </table>\n" ++
  "                </body>\n" ++
  "                </html>\n" ++
  "                "

/-! ### Endpoints -/

inductive TermResp where
  | html (body : String)
  | json (data : TermData)
deriving DecidableEq

def TermResp.isHtml : TermResp → Bool
  | TermResp.html _ => true
  | TermResp.json _ => false

def TermResp.htmlBody : TermResp → String
  | TermResp.html b => b
  | TermResp.json _ => ""

/-- `GET /dissociate/terms/<term_a>/<term_b>` on a reachable store: the
assembled data, rendered as HTML when `accept_html` holds and as JSON
otherwise, paired with the trace of store queries. -/
def dissociateTerms (db : DB) (items : List AcceptItem) (ta tb : String) :
    TermResp × List Query :=
  ((if acceptHtml items
    then TermResp.html (renderTermHtml (dissociateTermsCore db ta tb).fst)
    else TermResp.json (dissociateTermsCore db ta tb).fst),
   (dissociateTermsCore db ta tb).snd)

inductive LocResp where
  | invalid (msg : String)
  | html (body : String)
  | json (data : LocData)
deriving DecidableEq

def LocResp.isHtml : LocResp → Bool
  | LocResp.html _ => true
  | _ => false

def LocResp.isInvalid : LocResp → Bool
  | LocResp.invalid _ => true
  | _ => false

/-- `GET /dissociate/locations/<coords_a>/<coords_b>`: both triples are
parsed before the engine is touched; a parse failure returns the 400
payload with an empty query trace. -/
def dissociateLocations (db : DB) (items : List AcceptItem) (ca cb : String) :
    LocResp × List Query :=
  match parseCoords ca, parseCoords cb with
  | some pa, some pb =>
    ((if acceptHtml items
      then LocResp.html (renderLocHtml ca cb (dissociateLocationsCore db pa pb).fst)
      else LocResp.json (dissociateLocationsCore db pa pb).fst),
     (dissociateLocationsCore db pa pb).snd)
  | _, _ =>
    (LocResp.invalid "Invalid coordinate format. Use x_y_z with underscores.", [])

/-! ### Helper lemmas -/

theorem contains_iff_mem {l : List Nat} {a : Nat} :
    l.contains a = true ↔ a ∈ l := by
  simp [List.contains, List.elem_iff]

theorem isPrefixOf_drop_infix (needle l : List Char) (i : Nat)
    (h : List.isPrefixOf needle (l.drop i) = true) : needle <:+: l := by
  have hp : needle <+: l.drop i := List.isPrefixOf_iff_prefix.mp h
  obtain ⟨r, hr⟩ := hp
  refine ⟨l.take i, r, ?_⟩
  rw [List.append_assoc, hr, List.take_append_drop]

theorem mem_resolveTermStudies (db : DB) (t : String) (sid : Nat) :
    sid ∈ resolveTermStudies db t ↔
      ∃ r ∈ db.annotations_terms,
        r.study_id = sid ∧ ilike r.term (termPattern t) = true := by
  constructor
  · intro h
    obtain ⟨r, hr, hid⟩ := List.mem_map.mp h
    rw [List.mem_filter] at hr
    exact ⟨r, hr.1, hid, hr.2⟩
  · rintro ⟨r, hr, hid, hil⟩
    exact List.mem_map.mpr ⟨r, List.mem_filter.mpr ⟨hr, hil⟩, hid⟩

theorem termDissocIds_mem (db : DB) (ta tb : String) (sid : Nat)
    (h : sid ∈ termDissocIds db ta tb) :
    (∃ r ∈ db.annotations_terms,
        r.study_id = sid ∧ ilike r.term (termPattern ta) = true) ∧
    (∀ r ∈ db.annotations_terms,
        r.study_id = sid → ilike r.term (termPattern tb) = false) := by
  have h1 := List.mem_of_mem_take h
  rw [List.mem_dedup] at h1
  obtain ⟨r, hr, hid⟩ := List.mem_map.mp h1
  rw [List.mem_filter, Bool.and_eq_true] at hr
  obtain ⟨hrmem, hilike, hnotb⟩ := hr
  rw [Bool.not_eq_true', ← Bool.not_eq_true] at hnotb
  constructor
  · exact ⟨r, hrmem, hid, hilike⟩
  · intro r2 hr2 hid2
    by_contra hfalse
    rw [Bool.not_eq_false] at hfalse
    apply hnotb
    rw [contains_iff_mem, hid]
    exact (mem_resolveTermStudies db tb sid).mpr ⟨r2, hr2, hid2, hfalse⟩

theorem mem_coordDissocAB (db : DB) (pa pb : PyFloat × PyFloat × PyFloat)
    (sid : Nat) :
    sid ∈ coordDissocAB db pa pb ↔
      sid ∈ getStudies db pa ∧ sid ∉ getStudies db pb := by
  rw [coordDissocAB, List.mem_filter]
  constructor
  · rintro ⟨h1, h2⟩
    rw [Bool.not_eq_true', ← Bool.not_eq_true] at h2
    exact ⟨h1, fun hb => h2 (contains_iff_mem.mpr hb)⟩
  · rintro ⟨h1, h2⟩
    refine ⟨h1, ?_⟩
    rw [Bool.not_eq_true', ← Bool.not_eq_true]
    exact fun hc => h2 (contains_iff_mem.mp hc)

theorem mem_coordDissocBA (db : DB) (pa pb : PyFloat × PyFloat × PyFloat)
    (sid : Nat) :
    sid ∈ coordDissocBA db pa pb ↔
      sid ∈ getStudies db pb ∧ sid ∉ getStudies db pa := by
  rw [coordDissocBA, List.mem_filter]
  constructor
  · rintro ⟨h1, h2⟩
    rw [Bool.not_eq_true', ← Bool.not_eq_true] at h2
    exact ⟨h1, fun hb => h2 (contains_iff_mem.mpr hb)⟩
  · rintro ⟨h1, h2⟩
    refine ⟨h1, ?_⟩
    rw [Bool.not_eq_true', ← Bool.not_eq_true]
    exact fun hc => h2 (contains_iff_mem.mp hc)

theorem metaDict_eq_none (rows : List (Nat × Option String)) (sid : Nat)
    (h : ∀ r ∈ rows, r.1 ≠ sid) : metaDict rows sid = none := by
  have hf : rows.reverse.find? (fun r => r.1 == sid) = none := by
    rw [List.find?_eq_none]
    intro x hx
    rw [List.mem_reverse] at hx
    simp [h x hx]
  unfold metaDict
  rw [hf]

/-! ### Concrete stores used by counterexamples and witnesses -/

def dbEmpty : DB := { annotations_terms := [], coordinates := [], metadata := [] }

/-- One study whose single annotation term is `abc`; metadata present. -/
def dbWild : DB :=
  { annotations_terms := [⟨1, "c1", "abc", 1⟩],
    coordinates := [],
    metadata := [⟨1, some "T"⟩] }

/-- Studies 1 and 2 annotated `amygdala`, study 2 also `hippocampus`;
coordinates (0,0,0) for study 1 and (1,1,1) for study 2. -/
def dbW : DB :=
  { annotations_terms :=
      [⟨1, "c1", "amygdala", 1⟩, ⟨2, "c1", "amygdala", 1⟩,
       ⟨2, "c2", "hippocampus", 1⟩],
    coordinates := [⟨1, 0, 0, 0⟩, ⟨2, 1, 1, 1⟩],
    metadata := [⟨1, some "S1"⟩, ⟨2, some "S2"⟩] }

/-- 51 studies (ids 0..50) all annotated with the term `a`. -/
def db51 : DB :=
  { annotations_terms := (List.range 51).map fun i => ⟨i, "c", "a", 1⟩,
    coordinates := [],
    metadata := [] }

/-- Study 1 has an annotation and a coordinate but no metadata row. -/
def dbNoMeta : DB :=
  { annotations_terms := [⟨1, "c1", "amy", 1⟩],
    coordinates := [⟨1, 0, 0, 0⟩],
    metadata := [] }

/-! ### Claims -/

/-- C5 (amended): membership in the term resolution
(`SELECT study_id FROM ns.annotations_terms WHERE term ILIKE '%t%'`)
coincides with case-insensitive substring containment for every term free
of the ILIKE metacharacters `%`, `_` and `\`; terms containing those
characters are interpreted as patterns instead (see the counterexample). -/
theorem claim_C5 (db : DB) (t : String) (ht : plain t.data = true) (sid : Nat) :
    sid ∈ resolveTermStudies db t ↔
      ∃ r ∈ db.annotations_terms, r.study_id = sid ∧ containsCI r.term t := by
  rw [mem_resolveTermStudies]
  constructor
  · rintro ⟨r, hr, hid, hil⟩
    exact ⟨r, hr, hid, (ilike_termPattern_iff r.term t ht).mp hil⟩
  · rintro ⟨r, hr, hid, hc⟩
    exact ⟨r, hr, hid, (ilike_termPattern_iff r.term t ht).mpr hc⟩

/-- C5 counterexample: with the term `a_c`, study 1 (annotated `abc`) is in
the resolved set although no annotation of it contains `a_c` literally as a
case-insensitive substring: the `_` in the unescaped ILIKE pattern matched
the `b`. -/
theorem claim_C5_counterexample :
    (1 ∈ resolveTermStudies dbWild "a_c") ∧
    ¬ ∃ r ∈ dbWild.annotations_terms, r.study_id = 1 ∧ containsCI r.term "a_c" := by
  constructor
  · decide
  · decide

theorem claim_C5_witness :
    1 ∈ resolveTermStudies dbW "amyg" ↔
      ∃ r ∈ dbW.annotations_terms, r.study_id = 1 ∧ containsCI r.term "amyg" :=
  claim_C5 dbW "amyg" (by decide) 1

/-- C1 (amended): for ILIKE-metacharacter-free terms, and a metadata table
with at most one row per study id (its key), every entry of the term-mode
result list belongs to a study with an annotation containing `term_a` as a
case-insensitive substring and with no annotation containing `term_b`, and
the result carries no duplicate study ids.  Terms containing `%`, `_` or
`\` are interpreted as ILIKE patterns instead (see the counterexample). -/
theorem claim_C1 (db : DB) (ta tb : String)
    (hta : plain ta.data = true) (htb : plain tb.data = true)
    (hPK : (db.metadata.map fun m => m.study_id).Nodup) :
    (∀ e ∈ (dissociateTermsCore db ta tb).fst.studies,
        (∃ r ∈ db.annotations_terms, r.study_id = e.1 ∧ containsCI r.term ta) ∧
        (∀ r ∈ db.annotations_terms, r.study_id = e.1 → ¬ containsCI r.term tb)) ∧
    ((dissociateTermsCore db ta tb).fst.studies.map Prod.fst).Nodup := by
  cases hids : (termDissocIds db ta tb).isEmpty with
  | true => simp [dissociateTermsCore, hids]
  | false =>
    have hstudies : (dissociateTermsCore db ta tb).fst.studies
        = termMetaRows db (termDissocIds db ta tb) := by
      simp [dissociateTermsCore, hids]
    rw [hstudies]
    constructor
    · intro e he
      obtain ⟨m, hm, hme⟩ := List.mem_map.mp (List.mem_of_mem_take he)
      rw [List.mem_filter] at hm
      have hidmem : e.1 ∈ termDissocIds db ta tb := by
        rw [← hme]
        exact contains_iff_mem.mp hm.2
      obtain ⟨hex, hall⟩ := termDissocIds_mem db ta tb e.1 hidmem
      constructor
      · obtain ⟨r, hr, hrid, hril⟩ := hex
        exact ⟨r, hr, hrid, (ilike_termPattern_iff r.term ta hta).mp hril⟩
      · intro r hr hrid hc
        have hfalse := hall r hr hrid
        have htrue := (ilike_termPattern_iff r.term tb htb).mpr hc
        rw [hfalse] at htrue
        simp at htrue
    · unfold termMetaRows
      rw [List.map_take, List.map_map]
      have hcomp : (Prod.fst ∘ fun m : MetadataRow => (m.study_id, m.title))
          = fun m => m.study_id := rfl
      rw [hcomp]
      apply List.Nodup.sublist _ hPK
      exact (List.take_sublist _ _).trans
        ((List.filter_sublist db.metadata).map fun m : MetadataRow => m.study_id)

/-- C1 counterexample: with `term_a = "a_c"` and `term_b = "q"`, the
returned study list contains study 1 although its only annotation (`abc`)
does not contain `a_c` as a substring: `_` acted as an ILIKE wildcard. -/
theorem claim_C1_counterexample :
    ((1, some "T") ∈ (dissociateTermsCore dbWild "a_c" "q").fst.studies) ∧
    ¬ ∃ r ∈ dbWild.annotations_terms, r.study_id = 1 ∧ containsCI r.term "a_c" := by
  constructor
  · decide
  · decide

theorem claim_C1_witness :
    (∀ e ∈ (dissociateTermsCore dbW "amygdala" "hippocampus").fst.studies,
        (∃ r ∈ dbW.annotations_terms,
            r.study_id = e.1 ∧ containsCI r.term "amygdala") ∧
        (∀ r ∈ dbW.annotations_terms,
            r.study_id = e.1 → ¬ containsCI r.term "hippocampus")) ∧
    ((dissociateTermsCore dbW "amygdala" "hippocampus").fst.studies.map
      Prod.fst).Nodup :=
  claim_C1 dbW "amygdala" "hippocampus" (by decide) (by decide) (by decide)

/-- C2: for every store and every pair of parsed coordinate triples, the
two difference lists of `dissociate_locations` are disjoint as sets, and
`A_minus_B` together with the intersection of the two resolved sets is
exactly the resolution of the first triple. -/
theorem claim_C2 (db : DB) (pa pb : PyFloat × PyFloat × PyFloat) :
    ((coordDissocAB db pa pb).toFinset ∩ (coordDissocBA db pa pb).toFinset = ∅) ∧
    ((coordDissocAB db pa pb).toFinset ∪
        ((getStudies db pa).toFinset ∩ (getStudies db pb).toFinset)
      = (getStudies db pa).toFinset) := by
  constructor
  · ext sid
    simp only [Finset.mem_inter, List.mem_toFinset, Finset.not_mem_empty,
      iff_false, not_and]
    intro h1 h2
    rw [mem_coordDissocAB] at h1
    rw [mem_coordDissocBA] at h2
    exact h1.2 h2.1
  · ext sid
    simp only [Finset.mem_union, Finset.mem_inter, List.mem_toFinset]
    rw [mem_coordDissocAB]
    constructor
    · rintro (⟨h1, _⟩ | ⟨h1, _⟩) <;> exact h1
    · intro h1
      by_cases hb : sid ∈ getStudies db pb
      · right; exact ⟨h1, hb⟩
      · left; exact ⟨h1, hb⟩

theorem acceptHtml_iff (items : List AcceptItem) :
    acceptHtml items = true ↔
      ∃ it ∈ items, valueMatches "text/html" it.mime = true ∨
        valueMatches "application/xhtml+xml" it.mime = true ∨
        valueMatches "application/xml" it.mime = true := by
  simp only [acceptHtml, mimeAccepts, Bool.or_eq_true, List.any_eq_true]
  constructor
  · rintro ((⟨it, hit, h⟩ | ⟨it, hit, h⟩) | ⟨it, hit, h⟩)
    · exact ⟨it, hit, Or.inl h⟩
    · exact ⟨it, hit, Or.inr (Or.inl h)⟩
    · exact ⟨it, hit, Or.inr (Or.inr h)⟩
  · rintro ⟨it, hit, (h | h | h)⟩
    · exact Or.inl (Or.inl ⟨it, hit, h⟩)
    · exact Or.inl (Or.inr ⟨it, hit, h⟩)
    · exact Or.inr ⟨it, hit, h⟩

theorem isHtml_dissociateTerms (db : DB) (items : List AcceptItem)
    (ta tb : String) :
    (dissociateTerms db items ta tb).fst.isHtml = acceptHtml items := by
  unfold dissociateTerms
  cases h : acceptHtml items <;> simp [h, TermResp.isHtml]

theorem isHtml_dissociateLocations (db : DB) (items : List AcceptItem)
    (ca cb : String) (pa pb : PyFloat × PyFloat × PyFloat)
    (h1 : parseCoords ca = some pa) (h2 : parseCoords cb = some pb) :
    (dissociateLocations db items ca cb).fst.isHtml = acceptHtml items := by
  unfold dissociateLocations
  rw [h1, h2]
  cases h : acceptHtml items <;> simp [h, LocResp.isHtml]

/-- C3 (amended): both endpoints render markup exactly when the Accept
header contains an entry matching `text/html`, `application/xhtml+xml` or
`application/xml` (exactly or through a wildcard), regardless of the
quality values; in every other case, in particular for an absent Accept
header, the JSON payload is returned.  Markup is not reserved to clients
that prefer it over structured data (see the counterexample). -/
theorem claim_C3 (items : List AcceptItem) (db : DB) (ta tb ca cb : String)
    (pa pb : PyFloat × PyFloat × PyFloat)
    (h1 : parseCoords ca = some pa) (h2 : parseCoords cb = some pb) :
    ((dissociateTerms db items ta tb).fst.isHtml = true ↔
      ∃ it ∈ items, valueMatches "text/html" it.mime = true ∨
        valueMatches "application/xhtml+xml" it.mime = true ∨
        valueMatches "application/xml" it.mime = true) ∧
    ((dissociateLocations db items ca cb).fst.isHtml = true ↔
      ∃ it ∈ items, valueMatches "text/html" it.mime = true ∨
        valueMatches "application/xhtml+xml" it.mime = true ∨
        valueMatches "application/xml" it.mime = true) ∧
    acceptHtml [] = false := by
  refine ⟨?_, ?_, by decide⟩
  · rw [isHtml_dissociateTerms]
    exact acceptHtml_iff items
  · rw [isHtml_dissociateLocations db items ca cb pa pb h1 h2]
    exact acceptHtml_iff items

/-- C3 counterexample: a client that assigns quality 1 to
`application/json` and quality 0 to `text/html` (so it certainly does not
prefer markup over structured data) is still served the markup rendering,
because `accept_html` ignores the quality values. -/
theorem claim_C3_counterexample :
    ((dissociateTerms dbEmpty
        [⟨"application/json", 1⟩, ⟨"text/html", 0⟩] "a" "b").fst.isHtml = true) ∧
    ¬ specPrefersMarkup [⟨"application/json", 1⟩, ⟨"text/html", 0⟩] := by
  constructor
  · decide
  · decide

theorem claim_C3_witness :
    (((dissociateTerms dbEmpty [⟨"text/html", 1⟩] "a" "b").fst.isHtml = true ↔
      ∃ it ∈ [AcceptItem.mk "text/html" 1],
        valueMatches "text/html" it.mime = true ∨
        valueMatches "application/xhtml+xml" it.mime = true ∨
        valueMatches "application/xml" it.mime = true) ∧
    ((dissociateLocations dbEmpty [⟨"text/html", 1⟩] "1_2_3" "4_5_6").fst.isHtml = true ↔
      ∃ it ∈ [AcceptItem.mk "text/html" 1],
        valueMatches "text/html" it.mime = true ∨
        valueMatches "application/xhtml+xml" it.mime = true ∨
        valueMatches "application/xml" it.mime = true) ∧
    acceptHtml [] = false) :=
  claim_C3 [⟨"text/html", 1⟩] dbEmpty "a" "b" "1_2_3" "4_5_6"
    (PyFloat.finite 1 1, PyFloat.finite 2 1, PyFloat.finite 3 1)
    (PyFloat.finite 4 1, PyFloat.finite 5 1, PyFloat.finite 6 1)
    (by decide) (by decide)

set_option maxRecDepth 4000 in
/-- C4: the renderer does not escape user-influenced text.  Requesting the
term endpoint with a markup payload as `term_a` and an HTML-preferring
Accept header yields a body in which the payload occurs verbatim
(uninterpreted `<script>` tags), contradicting the required escaping. -/
theorem claim_C4 :
    List.IsInfix "<script>alert(1)</script>".data
      ((dissociateTerms dbEmpty [⟨"text/html", 1⟩]
        "<script>alert(1)</script>" "q").fst.htmlBody).data :=
  isPrefixOf_drop_infix _ _ 955 (by decide)

/-- C6: `"1.0_2.0_3.0"` parses to exactly the rational values 1, 2 and 3,
and for any request in which either triple fails to parse, the coordinate
endpoint answers with the 400 `InvalidInput` payload and issues no store
query at all (the trace is empty and independent of the store). -/
theorem claim_C6 :
    (parseCoords "1.0_2.0_3.0" =
        some (PyFloat.finite 10 10, PyFloat.finite 20 10, PyFloat.finite 30 10) ∧
      PyFloat.valQ (PyFloat.finite 10 10) = some 1 ∧
      PyFloat.valQ (PyFloat.finite 20 10) = some 2 ∧
      PyFloat.valQ (PyFloat.finite 30 10) = some 3) ∧
    ∀ (db : DB) (items : List AcceptItem) (ca cb : String),
      parseCoords ca = none ∨ parseCoords cb = none →
      dissociateLocations db items ca cb =
        (LocResp.invalid "Invalid coordinate format. Use x_y_z with underscores.",
         []) := by
  constructor
  · refine ⟨by decide, ?_, ?_, ?_⟩ <;> simp [PyFloat.valQ] <;> norm_num
  · intro db items ca cb h
    rcases h with h | h
    · cases hcb : parseCoords cb <;> simp [dissociateLocations, h, hcb]
    · cases hca : parseCoords ca <;> simp [dissociateLocations, hca, h]

theorem claim_C6_witness :
    dissociateLocations dbEmpty [] "a_b_c" "1_2_3" =
      (LocResp.invalid "Invalid coordinate format. Use x_y_z with underscores.",
       []) :=
  claim_C6.2 dbEmpty [] "a_b_c" "1_2_3" (Or.inl (by decide))

/-- C7 (amended): the bound of 50 is applied twice in term mode: the
dissociated study-id set itself is truncated to 50 by the `LIMIT 50` of
the dissociation query, and the joined result is truncated to 50 again by
the `LIMIT 50` of the metadata query.  The intermediate set is therefore
also capped (see the counterexample), not just the final joined result. -/
theorem claim_C7 (db : DB) (ta tb : String) :
    (termDissocIds db ta tb).length ≤ 50 ∧
    (dissociateTermsCore db ta tb).fst.studies.length ≤ 50 := by
  constructor
  · exact List.length_take_le _ _
  · cases hids : (termDissocIds db ta tb).isEmpty
    · have : (dissociateTermsCore db ta tb).fst.studies
          = termMetaRows db (termDissocIds db ta tb) := by
        simp [dissociateTermsCore, hids]
      rw [this]
      exact List.length_take_le _ _
    · simp [dissociateTermsCore, hids]

/-- C7 counterexample: with 51 studies annotated `a` and a non-matching
`term_b`, study 50 satisfies the dissociation condition but is missing
from the dissociated id set, which was truncated to 50 elements before
the metadata join. -/
theorem claim_C7_counterexample :
    (∃ r ∈ db51.annotations_terms,
        r.study_id = 50 ∧ ilike r.term (termPattern "a") = true) ∧
    (∀ r ∈ db51.annotations_terms,
        r.study_id = 50 → ilike r.term (termPattern "zzz") = false) ∧
    50 ∉ termDissocIds db51 "a" "zzz" ∧
    (termDissocIds db51 "a" "zzz").length = 50 := by
  refine ⟨by decide, by decide, by decide, by decide⟩

/-- C8 (amended): a dissociated study id with no metadata row is kept with
a null title by the coordinate endpoint (`meta_dict.get(sid)` is `None`),
but is silently dropped from the joined result of the term endpoint, whose
metadata join only returns rows that exist; neither case fails. -/
theorem claim_C8 (db : DB) (pa pb : PyFloat × PyFloat × PyFloat)
    (ta tb : String) (sid : Nat)
    (h1 : sid ∈ coordDissocAB db pa pb)
    (h2 : ∀ m ∈ db.metadata, m.study_id ≠ sid)
    (h3 : sid ∈ termDissocIds db ta tb) :
    ((sid, (none : Option String)) ∈
        (dissociateLocationsCore db pa pb).fst.A_minus_B) ∧
    (∀ e ∈ (dissociateTermsCore db ta tb).fst.studies, e.1 ≠ sid) := by
  constructor
  · have hmd : metaDict (locMetaRows db pa pb) sid = none := by
      apply metaDict_eq_none
      intro r hr
      unfold locMetaRows at hr
      revert hr
      split
      · intro hr
        simp at hr
      · intro hr
        obtain ⟨m, hm, hme⟩ := List.mem_map.mp hr
        rw [List.mem_filter] at hm
        rw [← hme]
        exact h2 m hm.1
    unfold dissociateLocationsCore
    dsimp only
    refine List.mem_map.mpr ⟨sid, h1, ?_⟩
    rw [hmd]
  · intro e he
    revert he
    cases hids : (termDissocIds db ta tb).isEmpty
    · have : (dissociateTermsCore db ta tb).fst.studies
          = termMetaRows db (termDissocIds db ta tb) := by
        simp [dissociateTermsCore, hids]
      rw [this]
      intro he
      obtain ⟨m, hm, hme⟩ := List.mem_map.mp (List.mem_of_mem_take he)
      rw [List.mem_filter] at hm
      rw [← hme]
      exact h2 m hm.1
    · intro he
      rw [List.isEmpty_iff] at hids
      rw [hids] at h3
      simp at h3

/-- C8 counterexample: study 1 is in the dissociated id set of the term
endpoint but has no metadata row, and the final term-mode result is empty:
no entry with a null title is produced for it. -/
theorem claim_C8_counterexample :
    (1 ∈ termDissocIds dbNoMeta "amy" "zzz") ∧
    (dissociateTermsCore dbNoMeta "amy" "zzz").fst.studies = [] := by
  refine ⟨by decide, by decide⟩

theorem claim_C8_witness :
    ((1, (none : Option String)) ∈
        (dissociateLocationsCore dbNoMeta
          (PyFloat.finite 0 1, PyFloat.finite 0 1, PyFloat.finite 0 1)
          (PyFloat.finite 1 1, PyFloat.finite 1 1, PyFloat.finite 1 1)).fst.A_minus_B) ∧
    (∀ e ∈ (dissociateTermsCore dbNoMeta "amy" "zzz").fst.studies, e.1 ≠ 1) :=
  claim_C8 dbNoMeta
    (PyFloat.finite 0 1, PyFloat.finite 0 1, PyFloat.finite 0 1)
    (PyFloat.finite 1 1, PyFloat.finite 1 1, PyFloat.finite 1 1)
    "amy" "zzz" 1 (by decide) (by decide) (by decide)

/-- C9: when the dissociated sets are empty, both endpoints return the
valid empty result and issue no metadata query: the term endpoint answers
`count 0, studies []`, the coordinate endpoint empty difference lists, and
neither trace contains a metadata query. -/
theorem claim_C9 (db : DB) (ta tb : String)
    (pa pb : PyFloat × PyFloat × PyFloat)
    (h1 : termDissocIds db ta tb = [])
    (h2 : coordDissocAB db pa pb = []) (h3 : coordDissocBA db pa pb = []) :
    ((dissociateTermsCore db ta tb).fst =
        { term_a := ta, term_b := tb, count := 0, studies := [] } ∧
      ∀ ids, Query.termMeta ids ∉ (dissociateTermsCore db ta tb).snd) ∧
    ((dissociateLocationsCore db pa pb).fst.A_minus_B = [] ∧
      (dissociateLocationsCore db pa pb).fst.B_minus_A = [] ∧
      ∀ ids, Query.coordMeta ids ∉ (dissociateLocationsCore db pa pb).snd) := by
  refine ⟨⟨?_, ?_⟩, ?_, ?_, ?_⟩
  · simp [dissociateTermsCore, h1]
  · intro ids
    simp [dissociateTermsCore, h1]
  · simp [dissociateLocationsCore, h2]
  · simp [dissociateLocationsCore, h3]
  · intro ids
    simp [dissociateLocationsCore, h2, h3]

theorem claim_C9_witness :
    ((dissociateTermsCore dbEmpty "a" "b").fst =
        { term_a := "a", term_b := "b", count := 0, studies := [] } ∧
      ∀ ids, Query.termMeta ids ∉ (dissociateTermsCore dbEmpty "a" "b").snd) ∧
    ((dissociateLocationsCore dbEmpty
          (PyFloat.finite 0 1, PyFloat.finite 0 1, PyFloat.finite 0 1)
          (PyFloat.finite 1 1, PyFloat.finite 1 1, PyFloat.finite 1 1)).fst.A_minus_B = [] ∧
      (dissociateLocationsCore dbEmpty
          (PyFloat.finite 0 1, PyFloat.finite 0 1, PyFloat.finite 0 1)
          (PyFloat.finite 1 1, PyFloat.finite 1 1, PyFloat.finite 1 1)).fst.B_minus_A = [] ∧
      ∀ ids, Query.coordMeta ids ∉
        (dissociateLocationsCore dbEmpty
          (PyFloat.finite 0 1, PyFloat.finite 0 1, PyFloat.finite 0 1)
          (PyFloat.finite 1 1, PyFloat.finite 1 1, PyFloat.finite 1 1)).snd) :=
  claim_C9 dbEmpty "a" "b"
    (PyFloat.finite 0 1, PyFloat.finite 0 1, PyFloat.finite 0 1)
    (PyFloat.finite 1 1, PyFloat.finite 1 1, PyFloat.finite 1 1)
    (by decide) (by decide) (by decide)

/-- C10: Python float parsing is lenient, so the coordinate endpoint
accepts `nan`, `inf`, `-inf`, scientific notation and whitespace-padded
components; such requests are not rejected as InvalidInput but proceed to
the coordinate store queries. -/
theorem claim_C10 :
    (pyFloat? "nan".data = some PyFloat.nan) ∧
    (pyFloat? "inf".data = some PyFloat.inf) ∧
    (pyFloat? "-inf".data = some PyFloat.neginf) ∧
    (pyFloat? "1e3".data = some (PyFloat.finite 1000 1) ∧
      PyFloat.valQ (PyFloat.finite 1000 1) = some 1000) ∧
    (pyFloat? " 2.5 ".data = some (PyFloat.finite 25 10) ∧
      PyFloat.valQ (PyFloat.finite 25 10) = some (5 / 2)) ∧
    ∀ db : DB,
      ((dissociateLocations db [] "nan_inf_-inf" "1e3_ 2.5 _3").fst.isInvalid
          = false) ∧
      Query.coordStudies (PyFloat.nan, PyFloat.inf, PyFloat.neginf) ∈
        (dissociateLocations db [] "nan_inf_-inf" "1e3_ 2.5 _3").snd := by
  refine ⟨by decide, by decide, by decide, ⟨by decide, ?_⟩, ⟨by decide, ?_⟩, ?_⟩
  · norm_num [PyFloat.valQ]
  · norm_num [PyFloat.valQ]
  · intro db
    have hpa : parseCoords "nan_inf_-inf"
        = some (PyFloat.nan, PyFloat.inf, PyFloat.neginf) := by decide
    have hpb : parseCoords "1e3_ 2.5 _3"
        = some (PyFloat.finite 1000 1, PyFloat.finite 25 10, PyFloat.finite 3 1) := by
      decide
    have hacc : acceptHtml [] = false := by decide
    unfold dissociateLocations
    rw [hpa, hpb]
    constructor
    · simp [hacc, LocResp.isInvalid]
    · simp [dissociateLocationsCore]
